import Mathlib

/-
Verification of the medlitbot training-job orchestration and classifier
abstraction layer.  The definitions below are shallow embeddings of the
Python source (classification/api.py, classification/tasks.py,
classification/models.py, classification/periodic_tasks.py,
classification/ml_models.py, classification/hyperparameter_optimization.py).
Floating-point scores are modelled as rationals; wall-clock timestamps as
integers (hours); database rows as records in an explicit store.
-/

namespace Medlitbot

/- ### String primitives with Python semantics.
Lean 4.14 models a String as a structure over List Char, so all of these
are executable and kernel-reducible. -/

/-- Substring test: Python `needle in hay`, on character lists. -/
def containsChars (needle : List Char) : List Char → Bool
  | [] => needle.isEmpty
  | c :: cs => needle.isPrefixOf (c :: cs) || containsChars needle cs

/-- Substring test on strings (Python `needle in hay`). -/
def strContains (hay needle : String) : Bool :=
  containsChars needle.data hay.data

/-- Python `str.lower` (ASCII case folding, as used by the source on
ASCII domain names and generated text). -/
def lowerStr (s : String) : String :=
  ⟨s.data.map Char.toLower⟩

/-- Whitespace test for Python `str.strip`. -/
def isSpaceChar (c : Char) : Bool :=
  c = ' ' || c = '\t' || c = '\n' || c = '\r'

/-- Python `str.strip`. -/
def strTrim (s : String) : String :=
  ⟨((s.data.dropWhile isSpaceChar).reverse.dropWhile isSpaceChar).reverse⟩

/-- Fueled worker for `pyReplace`; fuel = length of the scanned list, which
is enough because each step consumes at least one character whenever the
pattern is nonempty. -/
def replaceCharsGo (old new : List Char) : ℕ → List Char → List Char
  | 0, l => l
  | _ + 1, [] => []
  | fuel + 1, c :: cs =>
      if old.isPrefixOf (c :: cs) ∧ old ≠ [] then
        new ++ replaceCharsGo old new fuel ((c :: cs).drop old.length)
      else
        c :: replaceCharsGo old new fuel cs

/-- Python `s.replace(old, new)` (every occurrence replaced, scanning left
to right).  The source only ever calls it with a nonempty pattern. -/
def pyReplace (s old new : String) : String :=
  ⟨replaceCharsGo old.data new.data s.data.length s.data⟩

/-- Python `s.endswith(suffix)`. -/
def strEndsWith (s suffix : String) : Bool :=
  suffix.data.isSuffixOf s.data

/-- Python `s[:-n]`: drop the last `n` characters. -/
def strDropRight (s : String) (n : ℕ) : String :=
  ⟨s.data.take (s.data.length - n)⟩

/-- Python `s.split(sep)` for a one-character separator; always returns a
nonempty list of segments. -/
def splitOnChar (sep : Char) : List Char → List (List Char)
  | [] => [[]]
  | c :: cs =>
      let rest := splitOnChar sep cs
      if c = sep then [] :: rest
      else
        match rest with
        | [] => [[c]]
        | h :: t => (c :: h) :: t

/-- Python `s.split(":")[-1]`. -/
def lastColonSegment (s : String) : String :=
  ⟨(splitOnChar ':' s.data).getLastD []⟩

/-- Python `hay.find(needle)`, as an option instead of the -1 sentinel. -/
def findIdxChars (needle : List Char) : List Char → Option ℕ
  | [] => if needle.isEmpty then some 0 else none
  | c :: cs =>
      if needle.isPrefixOf (c :: cs) then some 0
      else (findIdxChars needle cs).map (· + 1)

/-- The two chained single-character replaces
of `_fallback_prediction` (lowercase, then map both space and hyphen to
underscore), fused into one character map (sound because the
replacement character is not itself replaced). -/
def underscoreKey (s : String) : String :=
  ⟨s.data.map (fun c => if c = ' ' || c = '-' then '_' else c)⟩

/- ### Data model (classification/models.py). -/

/-- MLModel.STATUS_CHOICES. -/
inductive ModelStatus
  | created
  | training
  | trained
  | failed
  | evaluating
  | deployed
  | archived
deriving DecidableEq

/-- TrainingJob.JOB_STATUS_CHOICES. -/
inductive JobStatus
  | pending
  | running
  | completed
  | failed
  | cancelled
deriving DecidableEq

/-- The MLModel fields the orchestration layer reads and writes. -/
structure MLModel where
  id : ℕ
  status : ModelStatus
  is_trained : Bool
deriving DecidableEq

/-- The TrainingJob fields the orchestration layer reads and writes.
`modelId` plus the list invariants below encode the OneToOneField from
TrainingJob to MLModel; timestamps are hours as integers. -/
structure TrainingJob where
  modelId : ℕ
  celery_task_id : String
  status : JobStatus
  progress_percentage : ℚ
  current_epoch : ℕ
  total_epochs : ℕ
  created_at : ℤ
  completed_at : Option ℤ
  error_message : String
deriving DecidableEq

/-- The persisted store the API and tasks communicate through, plus the
list of model ids whose training tasks have been queued to the broker. -/
structure Store where
  models : List MLModel
  jobs : List TrainingJob
  queuedTasks : List ℕ
deriving DecidableEq

/-- Django `MLModel.objects.get(id=model_id)` hidden in `get_object_or_404`. -/
def findModel (st : Store) (modelId : ℕ) : Option MLModel :=
  st.models.find? (fun m => m.id == modelId)

/-- Lookup through the OneToOne relation: the training job row attached to
a model, regardless of its status. -/
def findJobForModel (jobs : List TrainingJob) (modelId : ℕ) : Option TrainingJob :=
  jobs.find? (fun j => j.modelId == modelId)

/-- A job status that is not terminal. -/
def nonTerminal (s : JobStatus) : Prop :=
  s = .pending ∨ s = .running

instance (s : JobStatus) : Decidable (nonTerminal s) := by
  unfold nonTerminal; infer_instance

/-- The OneToOneField constraint: no two job rows reference the same model. -/
def uniqueJobPerModel (jobs : List TrainingJob) : Prop :=
  jobs.Pairwise (fun a b => a.modelId ≠ b.modelId)

/-- At most one pending-or-running job may exist per model. -/
def atMostOneActiveJobPerModel (jobs : List TrainingJob) : Prop :=
  jobs.Pairwise (fun a b => a.modelId = b.modelId →
    ¬(nonTerminal a.status ∧ nonTerminal b.status))

/- ### classification/api.py: start_training. -/

/-- The responses `start_training` can produce.  `conflict` is the
ErrorResponse with message "Model is already training"; `creationError` is
the ErrorResponse produced when `TrainingJob.objects.create` violates the
OneToOne constraint and the surrounding `except Exception` catches it. -/
inductive StartTrainingResponse
  | notFound
  | conflict
  | alreadyTrained
  | creationError
  | started
deriving DecidableEq

/-- Shallow embedding of `start_training` (classification/api.py, lines
82-130): reject if the model is already training; reject if it is trained
and not failed; otherwise queue the Celery task, create the job row
(failing on the OneToOne constraint if a row already exists), and mark the
model as training. -/
def start_training (st : Store) (modelId : ℕ) (taskId : String)
    (totalEpochs : ℕ) (now : ℤ) : StartTrainingResponse × Store :=
  match findModel st modelId with
  | none => (.notFound, st)
  | some model =>
      if model.status = .training then
        (.conflict, st)
      else if model.is_trained = true ∧ model.status ≠ .failed then
        (.alreadyTrained, st)
      else
        let stQueued : Store := { st with queuedTasks := modelId :: st.queuedTasks }
        match findJobForModel stQueued.jobs modelId with
        | some _ => (.creationError, stQueued)
        | none =>
            let job : TrainingJob :=
              { modelId := modelId
                celery_task_id := taskId
                status := .pending
                progress_percentage := 0
                current_epoch := 0
                total_epochs := totalEpochs
                created_at := now
                completed_at := none
                error_message := "" }
            let stWithJob : Store := { stQueued with jobs := job :: stQueued.jobs }
            (.started,
              { stWithJob with
                  models := stWithJob.models.map
                    (fun m => if m.id == modelId then { m with status := .training } else m) })

/- ### classification/api.py: stop_model_training. -/

inductive StopTrainingResponse
  | modelNotFound
  | noActiveJob
  | stopped
deriving DecidableEq

/-- Django query for the one job of the model whose status is pending or running. -/
def activeJobQuery (jobs : List TrainingJob) (modelId : ℕ) : Option TrainingJob :=
  jobs.find? (fun j => j.modelId == modelId &&
    (j.status == JobStatus.pending || j.status == JobStatus.running))

/-- Shallow embedding of `stop_model_training` (classification/api.py,
lines 212-245).  The third component records the sequence of status values
written to the job row during the call. -/
def stop_model_training (st : Store) (modelId : ℕ) (now : ℤ) :
    StopTrainingResponse × Store × List JobStatus :=
  match findModel st modelId with
  | none => (.modelNotFound, st, [])
  | some _ =>
      match activeJobQuery st.jobs modelId with
      | none => (.noActiveJob, st, [])
      | some job =>
          let cancelledJob : TrainingJob :=
            { job with status := JobStatus.cancelled, completed_at := some now }
          (.stopped,
            { st with
                jobs := st.jobs.map (fun j => if j == job then cancelledJob else j)
                models := st.models.map
                  (fun m => if m.id == modelId then { m with status := ModelStatus.created } else m) },
            [JobStatus.cancelled])

/- ### classification/periodic_tasks.py: cleanup_stuck_training_jobs. -/

/-- One row of the sweep working set: a job together with the status of the
model it references (loaded through the select_related join). -/
structure JobRow where
  job : TrainingJob
  modelStatus : ModelStatus
deriving DecidableEq

/-- The age threshold of the periodic sweep: `timedelta(hours=3)`. -/
def stuckThresholdHours : ℤ := 3

/-- The filter selecting running or pending jobs created before the threshold. -/
def isStuck (now : ℤ) (row : JobRow) : Bool :=
  (row.job.status == JobStatus.running || row.job.status == JobStatus.pending) &&
    decide (row.job.created_at < now - stuckThresholdHours)

/-- The set of active Celery task ids.  `none` models the
`inspect.active()` call raising: the handler logs a warning and continues
with the empty set, i.e. with time-based cleanup only. -/
def activeIds : Option (List String) → List String
  | none => []
  | some ids => ids

/-- The body of the sweep loop for one row: a stuck job whose task id is
not among the active Celery tasks is marked failed (with the cleanup
message and a completion timestamp) and its model is marked failed;
every other row is left untouched. -/
def cleanupRow (now : ℤ) (ids : List String) (row : JobRow) : JobRow :=
  if isStuck now row = true ∧ row.job.celery_task_id ∉ ids then
    { job := { row.job with
        status := JobStatus.failed
        error_message := "Training job was stuck/orphaned and cleaned up automatically"
        completed_at := some now }
      modelStatus := ModelStatus.failed }
  else row

/-- Shallow embedding of one pass of `cleanup_stuck_training_jobs`
(classification/periodic_tasks.py, lines 14-87). -/
def cleanup_stuck_training_jobs (rows : List JobRow) (now : ℤ)
    (query : Option (List String)) : List JobRow :=
  rows.map (cleanupRow now (activeIds query))

/- ### classification/tasks.py: dataset preparation inside start_model_training. -/

/-- A DatasetSample row as read by the training task. -/
structure Sample where
  title : String
  abstract : String
  medical_domains : List String
deriving DecidableEq

/-- The spec names this failure `EmptyDatasetError`; the source raises
`ValueError` with one of the two messages below. -/
inductive TrainError
  | EmptyDatasetError (msg : String)
deriving DecidableEq

/-- The (combined text, labels) pairs of the samples that carry at least
one label: `valid_data` in `start_model_training`. -/
def validPairs (samples : List Sample) : List (String × List String) :=
  (samples.map (fun s => (strTrim (s.title ++ " " ++ s.abstract), s.medical_domains))).filter
    (fun p => !p.2.isEmpty)

/-- Shallow embedding of the data-preparation steps of
`start_model_training` (classification/tasks.py, lines 67-95): fail if the
dataset has no samples, combine title and abstract, keep only samples with
a nonempty label list, and fail if none remain. -/
def prepare_training_data (samples : List Sample) :
    Except TrainError (List (String × List String)) :=
  if samples.length = 0 then
    .error (.EmptyDatasetError "No samples found in dataset")
  else if (validPairs samples).isEmpty then
    .error (.EmptyDatasetError "No samples with valid labels found")
  else
    .ok (validPairs samples)

/-- The label vocabulary every classifier builds from its training data:
`sorted(list(set(union of all label lists)))` (classification/ml_models.py,
`_prepare_data` and `TraditionalMLClassifier.train`). -/
def labelVocabulary (data : List (String × List String)) : List String :=
  ((data.map Prod.snd).flatten.dedup).mergeSort (fun a b => decide (a ≤ b))

/- ### classification/ml_models.py: artifact paths written by save_model and
read by load_model.  Modelling the artifact store as the set of paths
written, a load succeeds exactly when every path it reads was written. -/

/-- Paths written by `TransformerClassifier.save_model(model_path)`: the
model directory (the path with .pkl replaced by _model) and the metadata
file (the path with .pkl replaced by _metadata.json). -/
def transformer_save_paths (model_path : String) : List String :=
  [pyReplace model_path ".pkl" "_model",
   pyReplace model_path ".pkl" "_metadata.json"]

/-- Paths read by `TransformerClassifier.load_model(model_path)`: if the
argument ends in `_model` it is itself the model directory and the
metadata path is derived from the base with the suffix stripped, otherwise
both are formed by plain suffixing. -/
def transformer_load_paths (model_path : String) : List String :=
  if strEndsWith model_path "_model" = true then
    [model_path, strDropRight model_path 6 ++ "_metadata.json"]
  else
    [model_path ++ "_model", model_path ++ "_metadata.json"]

/-- `TraditionalMLClassifier.save_model` pickles everything into the single
file at `model_path`. -/
def traditional_save_paths (model_path : String) : List String :=
  [model_path]

/-- `TraditionalMLClassifier.load_model` reads the single pickle back. -/
def traditional_load_paths (model_path : String) : List String :=
  [model_path]

/-- Paths written by `HybridEnsembleClassifier.save_model(model_path)`:
the transformer bundle under the path with .pkl replaced by
_transformer.pkl, the traditional pickle under the path with .pkl
replaced by _traditional.pkl, and the ensemble pickle at `model_path`
itself. -/
def hybrid_save_paths (model_path : String) : List String :=
  transformer_save_paths (pyReplace model_path ".pkl" "_transformer.pkl") ++
    traditional_save_paths (pyReplace model_path ".pkl" "_traditional.pkl") ++
    [model_path]

/-- Paths read by `HybridEnsembleClassifier.load_model(model_path)`: the
ensemble pickle, then the sub-classifier loads at the paths stored in it
(which save_model recorded as the `.pkl`-suffixed names). -/
def hybrid_load_paths (model_path : String) : List String :=
  [model_path] ++
    transformer_load_paths (pyReplace model_path ".pkl" "_transformer.pkl") ++
    traditional_load_paths (pyReplace model_path ".pkl" "_traditional.pkl")

/-- A load succeeds on a freshly saved artifact exactly when every path it
reads is among the paths the save wrote. -/
def load_finds_all (writes reads : List String) : Bool :=
  reads.all (fun p => writes.contains p)

/- ### classification/ml_models.py: threshold application in predict. -/

/-- The thresholding step shared by `TransformerClassifier.predict`,
`TraditionalMLClassifier.predict` and `HybridEnsembleClassifier.predict`:
a label is predicted exactly when its score is at least the threshold of
the caller. -/
def predictedDomains (labelScores : List (String × ℚ)) (threshold : ℚ) : List String :=
  (labelScores.filter (fun p => decide (threshold ≤ p.2))).map Prod.fst

/- ### classification/hyperparameter_optimization.py. -/

/-- The try/except of `HyperparameterOptimizer._objective_traditional`
(and of the other two objectives): training inside the trial either yields the
optimization metric or raises, and a raise is scored 0.0, the worst
possible value, instead of propagating. -/
def objective_traditional (outcome : Except String ℚ) : ℚ :=
  match outcome with
  | .ok score => score
  | .error _ => 0

/-- The fields of the dictionary `HyperparameterOptimizer.optimize`
returns that the claims are about. -/
structure OptimizationSummary where
  trialValues : List (ℕ × ℚ)
  best_value : Option ℚ
  n_trials : ℕ
deriving DecidableEq

/-- Shallow embedding of `HyperparameterOptimizer.optimize` on a fresh
study with no timeout: `study.optimize(objective, n_trials=n)` evaluates
the objective once per trial index, each trial records the value the
objective returns (0 for a caught training exception), `best_value` is
the maximum recorded value under the maximize direction, and `n_trials` is the
number of recorded trials.  `outcomes i` is the training outcome of trial
`i` (score, or the message of the exception it raised). -/
def optimize (outcomes : ℕ → Except String ℚ) (nTrials : ℕ) : OptimizationSummary :=
  let trials := (List.range nTrials).map (fun i => (i, objective_traditional (outcomes i)))
  { trialValues := trials
    best_value := (trials.map Prod.snd).max?
    n_trials := trials.length }

/- ### classification/tasks.py: progress writes of a training run.
The per-epoch updater `TrainingProgressCallback.on_epoch_end` (which would
write ((epoch+1)/total)*100 at tasks.py:119) is dead code: the callback
object is built at tasks.py:167 and never passed to any train call, so the
only writes the program performs to `progress_percentage` are the column
default 0.0 when the row is created and the terminal 100.0 at tasks.py:383
when a run completes. -/

/-- The progress values one run of `start_model_training` writes to its
job row: `progress_percentage = 100.0` at completion (tasks.py:383), and
nothing when the run fails or is cancelled (those paths write only status,
error and timestamp fields). -/
def runProgressWrites (completed : Bool) : List ℚ :=
  if completed then [100] else []

/-- The progress writes one TrainingJob row sees over its whole lifetime:
the column default 0.0 once at row creation, then the writes of each run
attached to the row in order (`get_or_create` at tasks.py:37 reuses the
existing row without resetting progress, so later runs append to the same
history).  `runsCompleted` records, per attached run, whether it
completed. -/
def jobLifetimeProgressWrites (runsCompleted : List Bool) : List ℚ :=
  0 :: (runsCompleted.map runProgressWrites).flatten

/-- Monotonically non-decreasing write sequence: no write is smaller than
any earlier one. -/
def progressNonDecreasing (writes : List ℚ) : Prop :=
  writes.Pairwise (· ≤ ·)

/- ### classification/tasks.py: _fallback_prediction. -/

/-- The built-in keyword table of `_fallback_prediction`. -/
def domain_keywords : List (String × List String) :=
  [("cardiology", ["heart", "cardiac", "cardiovascular", "coronary", "artery", "hypertension"]),
   ("neurology", ["brain", "neural", "neurological", "cognitive", "memory"]),
   ("oncology", ["cancer", "tumor", "malignant", "chemotherapy", "radiation"]),
   ("respiratory", ["lung", "respiratory", "pulmonary", "asthma", "breathing"]),
   ("endocrinology", ["diabetes", "hormone", "endocrine", "thyroid", "insulin", "diabetic"]),
   ("gastroenterology", ["stomach", "intestine", "liver", "digestive", "gastric"]),
   ("infectious_disease", ["infection", "virus", "bacteria", "antibiotic", "pathogen"]),
   ("radiology", ["imaging", "scan", "x-ray", "mri", "ct"]),
   ("emergency_medicine", ["emergency", "trauma", "acute", "critical", "urgent"]),
   ("surgery", ["surgical", "operation", "procedure", "incision", "operative"])]

/-- `available_domains = dataset_domains if dataset_domains else
list(domain_keywords.keys())`. -/
def availableDomains (datasetDomains : List String) : List String :=
  if datasetDomains.isEmpty then domain_keywords.map Prod.fst else datasetDomains

/-- The per-domain score of `_fallback_prediction`: base 0.1, plus 0.5 if
the lowercased domain name occurs in the text, plus a keyword bonus capped
at 0.7 when the underscored domain key is in the keyword table and at
least one keyword occurs, plus the random jitter (passed in explicitly),
clamped to [0, 1]. -/
def fallbackDomainScore (combined : String) (jitter : ℚ) (domain : String) : ℚ :=
  let base : ℚ := 0.1
  let withName := if strContains combined (lowerStr domain) = true then base + 0.5 else base
  let domainKey := underscoreKey (lowerStr domain)
  let withKeywords :=
    match domain_keywords.lookup domainKey with
    | none => withName
    | some keywords =>
        let keywordMatches := (keywords.filter (fun k => strContains combined k)).length
        if 0 < keywordMatches then
          withName + min 0.7 ((keywordMatches : ℚ) * 0.3)
        else withName
  max 0 (min 1 (withKeywords + jitter))

/-- The `domain_scores` dictionary, in insertion order.  The jitter drawn
by `random.uniform(-0.03, 0.03)` for a domain is supplied as a function. -/
def fallbackScores (datasetDomains : List String) (title abstract : String)
    (jitter : String → ℚ) : List (String × ℚ) :=
  let combined := lowerStr (title ++ " " ++ abstract)
  (availableDomains datasetDomains).map (fun d => (d, fallbackDomainScore combined (jitter d) d))

/-- Python `max(domain_scores, key=domain_scores.get)` together with the
looked-up score: the first entry with the maximal score. -/
def argmaxFirst : List (String × ℚ) → Option (String × ℚ)
  | [] => none
  | p :: ps =>
      match argmaxFirst ps with
      | none => some p
      | some q => if q.2 > p.2 then some q else some p

/-- The dictionary `_fallback_prediction` returns.  `fallback` is the
literal `"fallback": True` entry. -/
structure FallbackResult where
  predicted_domains : List String
  confidence_scores : List (String × ℚ)
  all_domain_scores : List (String × ℚ)
  status : String
  fallback : Bool
deriving DecidableEq

/-- The entries of `domain_scores` at or above the threshold of the caller
(both the predicted-domain list and the confidence dictionary are built
from this filter). -/
def fallbackFiltered (datasetDomains : List String) (title abstract : String)
    (threshold : ℚ) (jitter : String → ℚ) : List (String × ℚ) :=
  (fallbackScores datasetDomains title abstract jitter).filter
    (fun p => decide (threshold ≤ p.2))

/-- Shallow embedding of `_fallback_prediction` (classification/tasks.py,
lines 592-697): score every available domain, predict those at or above
the threshold, and when nothing clears the threshold fall back to the
single highest-scoring domain provided its score exceeds 0.2. -/
def fallback_prediction (datasetDomains : List String) (title abstract : String)
    (threshold : ℚ) (jitter : String → ℚ) : FallbackResult :=
  match (fallbackFiltered datasetDomains title abstract threshold jitter).map Prod.fst,
        argmaxFirst (fallbackScores datasetDomains title abstract jitter) with
  | [], some best =>
      if (0.2 : ℚ) < best.2 then
        { predicted_domains := [best.1]
          confidence_scores := [best]
          all_domain_scores := fallbackScores datasetDomains title abstract jitter
          status := "success"
          fallback := true }
      else
        { predicted_domains := []
          confidence_scores := []
          all_domain_scores := fallbackScores datasetDomains title abstract jitter
          status := "success"
          fallback := true }
  | ps, _ =>
      { predicted_domains := ps
        confidence_scores := fallbackFiltered datasetDomains title abstract threshold jitter
        all_domain_scores := fallbackScores datasetDomains title abstract jitter
        status := "success"
        fallback := true }

/- ### classification/ml_models.py: GemmaClassifier.predict. -/

/-- The marker `GemmaClassifier.predict` searches for in the decoded
generation before parsing. -/
def classificationMarker : String := "Classification (respond with only"

/-- The response-extraction step of `GemmaClassifier.predict`: take the
suffix from the marker when present, then everything after the last colon,
stripped. -/
def extract_classification (response : String) : String :=
  match findIdxChars classificationMarker.data response.data with
  | some i => strTrim (lastColonSegment ⟨response.data.drop i⟩)
  | none => strTrim (lastColonSegment response)

/-- `GemmaClassifier._parse_classification_response`: a label is predicted
exactly when its lowercased name occurs in the stripped, lowercased
response text. -/
def parse_classification_response (response : String) (all_labels : List String) :
    List String :=
  let r := lowerStr (strTrim response)
  all_labels.filter (fun label => strContains r (lowerStr label))

/-- The dictionary one entry of `GemmaClassifier.predict` returns. -/
structure GemmaPrediction where
  predicted_domains : List String
  confidence_scores : List (String × ℚ)
  all_scores : List (String × ℚ)
  raw_response : String
deriving DecidableEq

set_option linter.unusedVariables false in
/-- Shallow embedding of `GemmaClassifier.predict` for one input
(classification/ml_models.py, lines 840-915), taking the decoded
generation as input (text generation itself is the external model).  The
`threshold` parameter is accepted for API compatibility and never read,
exactly as in the source; confidence is the fixed 0.8 for predicted and
0.2 for non-predicted labels. -/
def gemma_predict_one (genText : String) (all_labels : List String)
    (threshold : ℚ) : GemmaPrediction :=
  let classificationResponse := extract_classification genText
  let predicted := parse_classification_response classificationResponse all_labels
  { predicted_domains := predicted
    confidence_scores :=
      (all_labels.filter (fun l => predicted.contains l)).map (fun l => (l, (0.8 : ℚ)))
    all_scores :=
      all_labels.map (fun l => (l, if predicted.contains l then (0.8 : ℚ) else 0.2))
    raw_response := classificationResponse }

/- ### Concrete inputs used by the witness theorems. -/

/-- A store holding one model that is currently training, with its running
job row. -/
def demoConflictStore : Store :=
  { models := [{ id := 1, status := .training, is_trained := false }]
    jobs := [{ modelId := 1, celery_task_id := "t1", status := .running,
               progress_percentage := 0, current_epoch := 0, total_epochs := 3,
               created_at := 0, completed_at := none, error_message := "" }]
    queuedTasks := [] }

/-- A pending job row for model 2, not yet started. -/
def demoPendingJob : TrainingJob :=
  { modelId := 2, celery_task_id := "t9", status := .pending,
    progress_percentage := 0, current_epoch := 0, total_epochs := 5,
    created_at := 0, completed_at := none, error_message := "" }

/-- A store holding one created model with a pending job. -/
def demoPendingStore : Store :=
  { models := [{ id := 2, status := .training, is_trained := false }]
    jobs := [demoPendingJob]
    queuedTasks := [] }

/-- A sweep row: a running job for model 3 created at hour 0, with its
model still marked training. -/
def demoStuckRow : JobRow :=
  { job := { modelId := 3, celery_task_id := "t3", status := .running,
             progress_percentage := 40, current_epoch := 2, total_epochs := 5,
             created_at := 0, completed_at := none, error_message := "" }
    modelStatus := .training }

/- ### Theorems. -/

/-- Helper: the one-job-per-model constraint implies at most one
non-terminal job per model. -/
theorem unique_imp_atMostOneActive (jobs : List TrainingJob) :
    uniqueJobPerModel jobs → atMostOneActiveJobPerModel jobs := fun h =>
  h.imp (fun hne heq => absurd heq hne)

/-- Claim C1: a start-training request for a model whose status is already
training is rejected synchronously with the conflict response and leaves
the store untouched (no job row created, no task queued); and
start_training preserves the one-job-per-model constraint, so at most one
non-terminal job exists per model at any instant. -/
theorem start_training_conflict_and_invariant
    (st : Store) (modelId : ℕ) (taskId : String) (totalEpochs : ℕ) (now : ℤ)
    (hinv : uniqueJobPerModel st.jobs) :
    (∀ model, findModel st modelId = some model → model.status = .training →
        start_training st modelId taskId totalEpochs now = (.conflict, st)) ∧
    uniqueJobPerModel (start_training st modelId taskId totalEpochs now).2.jobs ∧
    atMostOneActiveJobPerModel (start_training st modelId taskId totalEpochs now).2.jobs := by
  have hconf : ∀ model, findModel st modelId = some model → model.status = .training →
      start_training st modelId taskId totalEpochs now = (.conflict, st) := by
    intro model hm ht
    unfold start_training
    rw [hm]
    simp [ht]
  have hjobs : uniqueJobPerModel (start_training st modelId taskId totalEpochs now).2.jobs := by
    unfold start_training
    cases hfm : findModel st modelId with
    | none => exact hinv
    | some model =>
        by_cases ht : model.status = .training
        · simp only [ht, if_pos rfl]
          exact hinv
        · simp only [if_neg ht]
          by_cases htr : model.is_trained = true ∧ model.status ≠ .failed
          · simp only [if_pos htr]
            exact hinv
          · simp only [if_neg htr]
            cases hjq : findJobForModel st.jobs modelId with
            | some j => simp only [hjq]; exact hinv
            | none =>
                simp only [hjq]
                refine List.Pairwise.cons ?_ hinv
                intro b hb
                have hne := List.find?_eq_none.mp hjq b hb
                simp only [beq_iff_eq] at hne
                simp only [ne_eq]
                intro hcontra
                exact hne hcontra.symm
  exact ⟨hconf, hjobs, unique_imp_atMostOneActive _ hjobs⟩

/-- Witness for claim C1: on a concrete store whose model 1 is training,
the request is rejected with the conflict response and the store is
unchanged. -/
theorem start_training_conflict_witness :
    start_training demoConflictStore 1 "t2" 3 0 = (.conflict, demoConflictStore) ∧
    uniqueJobPerModel (start_training demoConflictStore 1 "t2" 3 0).2.jobs := by
  have h := start_training_conflict_and_invariant demoConflictStore 1 "t2" 3 0
    (by unfold uniqueJobPerModel demoConflictStore; decide)
  exact ⟨h.1 { id := 1, status := .training, is_trained := false } rfl rfl, h.2.1⟩

set_option linter.unusedVariables false in
/-- Claim C7: cancelling a pending job sets the job to cancelled with a
stop timestamp, resets the model to created, and the only status value
ever written to the job row during the call is cancelled, so the job never
passes through running. -/
theorem stop_pending_job_cancels_directly
    (st : Store) (modelId : ℕ) (now : ℤ) (model : MLModel) (job : TrainingJob)
    (hm : findModel st modelId = some model)
    (hj : activeJobQuery st.jobs modelId = some job)
    (hpending : job.status = .pending) :
    (stop_model_training st modelId now).1 = .stopped ∧
    { job with status := JobStatus.cancelled, completed_at := some now } ∈
        (stop_model_training st modelId now).2.1.jobs ∧
    (∀ m ∈ (stop_model_training st modelId now).2.1.models,
        m.id = modelId → m.status = .created) ∧
    (stop_model_training st modelId now).2.2 = [JobStatus.cancelled] ∧
    JobStatus.running ∉ (stop_model_training st modelId now).2.2 := by
  unfold stop_model_training
  rw [hm, hj]
  refine ⟨rfl, ?_, ?_, rfl, by simp⟩
  · have hmem : job ∈ st.jobs := List.mem_of_find?_eq_some hj
    have : ({ job with status := JobStatus.cancelled, completed_at := some now } :
        TrainingJob) = (fun j => if j == job then
          { job with status := JobStatus.cancelled, completed_at := some now } else j) job := by
      simp
    rw [this]
    exact List.mem_map_of_mem _ hmem
  · intro m hmm hid
    simp only [List.mem_map] at hmm
    obtain ⟨m₀, hm₀, hfm₀⟩ := hmm
    by_cases h0 : m₀.id = modelId
    · rw [← hfm₀]
      simp [h0]
    · rw [← hfm₀] at hid ⊢
      simp only [beq_iff_eq, if_neg h0] at hid ⊢
      exact absurd hid h0

/-- Witness for claim C7: cancelling the concrete pending job of model 2
yields the stopped response, the cancelled job row, and no write of the
running status. -/
theorem stop_pending_job_witness :
    (stop_model_training demoPendingStore 2 7).1 = .stopped ∧
    { demoPendingJob with status := JobStatus.cancelled, completed_at := some 7 } ∈
        (stop_model_training demoPendingStore 2 7).2.1.jobs ∧
    (stop_model_training demoPendingStore 2 7).2.2 = [JobStatus.cancelled] := by
  have h := stop_pending_job_cancels_directly demoPendingStore 2 7
    { id := 2, status := .training, is_trained := false } demoPendingJob rfl rfl rfl
  exact ⟨h.1, h.2.1, h.2.2.2.1⟩

/-- Claim C2: one pass of the stuck-job reclamation sweep fails every
pending-or-running job older than the threshold whose task handle is not
in the active-handle set (also failing its model and stamping completion),
leaves a job whose handle is active untouched, and when the active-handle
query itself fails it degrades to age-only reclamation instead of
skipping; the sweep processes every row of its working set this way. -/
theorem cleanup_stuck_jobs_spec
    (rows : List JobRow) (now : ℤ) (query : Option (List String)) (row : JobRow)
    (hmem : row ∈ rows) :
    cleanupRow now (activeIds query) row ∈ cleanup_stuck_training_jobs rows now query ∧
    (isStuck now row = true → row.job.celery_task_id ∉ activeIds query →
        (cleanupRow now (activeIds query) row).job.status = .failed ∧
        (cleanupRow now (activeIds query) row).modelStatus = .failed ∧
        (cleanupRow now (activeIds query) row).job.completed_at = some now) ∧
    (row.job.celery_task_id ∈ activeIds query →
        cleanupRow now (activeIds query) row = row) ∧
    (query = none → isStuck now row = true →
        (cleanupRow now (activeIds query) row).job.status = .failed ∧
        (cleanupRow now (activeIds query) row).modelStatus = .failed) := by
  refine ⟨List.mem_map_of_mem _ hmem, ?_, ?_, ?_⟩
  · intro hstuck hinactive
    unfold cleanupRow
    rw [if_pos ⟨hstuck, hinactive⟩]
    exact ⟨rfl, rfl, rfl⟩
  · intro hactive
    unfold cleanupRow
    rw [if_neg]
    intro hcontra
    exact hcontra.2 hactive
  · intro hq hstuck
    subst hq
    have : row.job.celery_task_id ∉ activeIds none := by
      simp [activeIds]
    unfold cleanupRow
    rw [if_pos ⟨hstuck, this⟩]
    exact ⟨rfl, rfl⟩

/-- Witness for claim C2: at hour 4, the concrete running job of model 3
(created at hour 0, task id t3) is reclaimed when the active set does not
hold t3, is left untouched when it does, and is reclaimed when the query
fails. -/
theorem cleanup_stuck_jobs_witness :
    (cleanupRow 4 (activeIds (some [])) demoStuckRow).job.status = .failed ∧
    (cleanupRow 4 (activeIds (some [])) demoStuckRow).modelStatus = .failed ∧
    cleanupRow 4 (activeIds (some ["t3"])) demoStuckRow = demoStuckRow ∧
    (cleanupRow 4 (activeIds none) demoStuckRow).job.status = .failed := by
  have h1 := cleanup_stuck_jobs_spec [demoStuckRow] 4 (some []) demoStuckRow (by simp)
  have h2 := cleanup_stuck_jobs_spec [demoStuckRow] 4 (some ["t3"]) demoStuckRow (by simp)
  have h3 := cleanup_stuck_jobs_spec [demoStuckRow] 4 none demoStuckRow (by simp)
  have hstuck : isStuck 4 demoStuckRow = true := by
    unfold isStuck demoStuckRow stuckThresholdHours; decide
  refine ⟨?_, ?_, ?_, ?_⟩
  · exact (h1.2.1 hstuck (by decide)).1
  · exact (h1.2.1 hstuck (by decide)).2.1
  · exact h2.2.2.1 (by decide)
  · exact (h3.2.2.2 rfl hstuck).1

/-- Claim C3: when no sample of the dataset carries a nonempty label set
(including the zero-sample dataset), the training pipeline fails with the
EmptyDatasetError; and whenever data preparation succeeds, the resulting
label vocabulary is nonempty, so training can never return a model with an
empty vocabulary. -/
theorem train_empty_dataset_fails (samples : List Sample) :
    ((∀ s ∈ samples, s.medical_domains = []) →
        prepare_training_data samples =
            .error (.EmptyDatasetError "No samples found in dataset") ∨
        prepare_training_data samples =
            .error (.EmptyDatasetError "No samples with valid labels found")) ∧
    (∀ data, prepare_training_data samples = .ok data → labelVocabulary data ≠ []) := by
  constructor
  · intro hempty
    unfold prepare_training_data
    by_cases hlen : samples.length = 0
    · rw [if_pos hlen]
      exact Or.inl rfl
    · rw [if_neg hlen]
      have hfilter : validPairs samples = [] := by
        unfold validPairs
        rw [List.filter_eq_nil_iff]
        intro p hp
        simp only [List.mem_map] at hp
        obtain ⟨s, hs, hps⟩ := hp
        rw [← hps]
        simp [hempty s hs]
      rw [hfilter]
      exact Or.inr rfl
  · intro data hdata
    unfold prepare_training_data at hdata
    by_cases hlen : samples.length = 0
    · rw [if_pos hlen] at hdata
      exact absurd hdata (by simp)
    · rw [if_neg hlen] at hdata
      by_cases hv : (validPairs samples).isEmpty = true
      · rw [if_pos hv] at hdata
        exact absurd hdata (by simp)
      · rw [if_neg hv] at hdata
        have hdv : validPairs samples = data := by
          simpa using hdata
        subst hdv
        have hne : validPairs samples ≠ [] := by
          intro hnil
          rw [hnil] at hv
          exact hv rfl
        obtain ⟨p, hp⟩ := List.exists_mem_of_ne_nil _ hne
        have hp2 : p.2 ≠ [] := by
          have := List.of_mem_filter hp
          simpa using this
        obtain ⟨x, hx⟩ := List.exists_mem_of_ne_nil _ hp2
        have hxf : x ∈ ((validPairs samples).map Prod.snd).flatten := by
          rw [List.mem_flatten]
          exact ⟨p.2, List.mem_map_of_mem _ hp, hx⟩
        have hxd : x ∈ ((validPairs samples).map Prod.snd).flatten.dedup :=
          List.mem_dedup.mpr hxf
        have hxm : x ∈ labelVocabulary (validPairs samples) := by
          unfold labelVocabulary
          exact (List.mergeSort_perm _ _).mem_iff.mpr hxd
        exact List.ne_nil_of_mem hxm

/-- Witness for claim C3: a one-sample dataset with an empty label list
fails with the EmptyDatasetError, and the prepared data of a one-sample
labeled dataset has a nonempty vocabulary. -/
theorem train_empty_dataset_witness :
    (prepare_training_data [{ title := "t", abstract := "a", medical_domains := [] }] =
        .error (.EmptyDatasetError "No samples found in dataset") ∨
     prepare_training_data [{ title := "t", abstract := "a", medical_domains := [] }] =
        .error (.EmptyDatasetError "No samples with valid labels found")) ∧
    labelVocabulary
        (validPairs [{ title := "t", abstract := "a", medical_domains := ["cardiology"] }]) ≠ [] := by
  constructor
  · exact (train_empty_dataset_fails _).1 (by decide)
  · exact (train_empty_dataset_fails
      [{ title := "t", abstract := "a", medical_domains := ["cardiology"] }]).2 _ rfl

/-- Claim C4, evaluated at the failing input: saving a hybrid ensemble to
the path the training task uses and loading it back from the same path
cannot succeed, because the load reads the transformer metadata at
`..._transformer.pkl_metadata.json` while the save wrote it at
`..._transformer_metadata.json`; the sequence-model and feature-based
variants round-trip their paths correctly. -/
theorem hybrid_save_load_path_mismatch :
    load_finds_all (hybrid_save_paths "trained_models/model_1.pkl")
        (hybrid_load_paths "trained_models/model_1.pkl") = false ∧
    "trained_models/model_1_transformer.pkl_metadata.json" ∈
        hybrid_load_paths "trained_models/model_1.pkl" ∧
    "trained_models/model_1_transformer_metadata.json" ∈
        hybrid_save_paths "trained_models/model_1.pkl" ∧
    "trained_models/model_1_transformer.pkl_metadata.json" ∉
        hybrid_save_paths "trained_models/model_1.pkl" ∧
    load_finds_all (transformer_save_paths "trained_models/model_1.pkl")
        (transformer_load_paths "trained_models/model_1_model") = true ∧
    load_finds_all (traditional_save_paths "trained_models/model_1.pkl")
        (traditional_load_paths "trained_models/model_1.pkl") = true := by
  decide

/-- Claim C5: for any fixed per-label score vector and thresholds t1 < t2,
the predicted-label set at t2 is a subset of the predicted-label set at
t1; and a label is predicted at a threshold exactly when it carries a
score at least that threshold. -/
theorem predicted_domains_antitone
    (labelScores : List (String × ℚ)) (t1 t2 : ℚ) (h : t1 < t2) :
    (∀ l ∈ predictedDomains labelScores t2, l ∈ predictedDomains labelScores t1) ∧
    (∀ l, l ∈ predictedDomains labelScores t1 ↔
        ∃ p ∈ labelScores, p.1 = l ∧ t1 ≤ p.2) := by
  constructor
  · intro l hl
    unfold predictedDomains at hl ⊢
    simp only [List.mem_map, List.mem_filter, decide_eq_true_eq] at hl ⊢
    obtain ⟨p, ⟨hp, hscore⟩, hpl⟩ := hl
    exact ⟨p, ⟨hp, le_trans (le_of_lt h) hscore⟩, hpl⟩
  · intro l
    unfold predictedDomains
    simp only [List.mem_map, List.mem_filter, decide_eq_true_eq]
    constructor
    · rintro ⟨p, ⟨hp, hscore⟩, hpl⟩
      exact ⟨p, hp, hpl, hscore⟩
    · rintro ⟨p, hp, hpl, hscore⟩
      exact ⟨p, ⟨hp, hscore⟩, hpl⟩

/-- Witness for claim C5: with scores cardiology 0 and neurology 1, the
set predicted at threshold 1 is contained in the set predicted at
threshold 0. -/
theorem predicted_domains_antitone_witness :
    "neurology" ∈ predictedDomains [("cardiology", 0), ("neurology", 1)] (0 : ℚ) ∧
    "cardiology" ∈ predictedDomains [("cardiology", 0), ("neurology", 1)] (0 : ℚ) := by
  have h := predicted_domains_antitone [("cardiology", 0), ("neurology", 1)] 0 1
    (by norm_num)
  constructor
  · exact h.1 "neurology" (by decide)
  · exact (h.2 "cardiology").mpr ⟨("cardiology", 0), by decide, rfl, le_refl 0⟩

/-- Helper: the maximum of a nonempty list of rationals exists, belongs to
the list, and bounds every element. -/
theorem max?_spec_rat (l : List ℚ) (h : l ≠ []) :
    ∃ v, l.max? = some v ∧ v ∈ l ∧ ∀ w ∈ l, w ≤ v := by
  cases hl : l.max? with
  | none =>
      rw [List.max?_eq_none_iff] at hl
      exact absurd hl h
  | some v =>
      refine ⟨v, rfl, List.max?_mem max_choice hl, ?_⟩
      exact (List.max?_le_iff (fun _ _ _ => max_le_iff) hl).mp le_rfl

/-- Claim C6: a search of N trials on a fresh study records exactly N
trials, records score 0 for every trial whose training raised, and reports
a best value equal to the maximum recorded score. -/
theorem optimize_trials_spec (outcomes : ℕ → Except String ℚ) (n : ℕ) (hn : 0 < n) :
    (optimize outcomes n).n_trials = n ∧
    (optimize outcomes n).trialValues.length = n ∧
    (∀ i e, i < n → outcomes i = .error e →
        (i, (0 : ℚ)) ∈ (optimize outcomes n).trialValues) ∧
    (∃ v, (optimize outcomes n).best_value = some v ∧
        v ∈ (optimize outcomes n).trialValues.map Prod.snd ∧
        ∀ w ∈ (optimize outcomes n).trialValues.map Prod.snd, w ≤ v) := by
  refine ⟨by simp [optimize], by simp [optimize], ?_, ?_⟩
  · intro i e hi he
    unfold optimize
    simp only [List.mem_map]
    exact ⟨i, by simpa using hi, by simp [objective_traditional, he]⟩
  · have hne : (optimize outcomes n).trialValues.map Prod.snd ≠ [] := by
      simp only [optimize, ne_eq, List.map_eq_nil_iff]
      intro hcontra
      have := congrArg List.length hcontra
      simp at this
      omega
    obtain ⟨v, hv, hvm, hvb⟩ := max?_spec_rat _ hne
    refine ⟨v, ?_, hvm, hvb⟩
    simpa [optimize] using hv

/-- Witness for claim C6: a two-trial search whose first trial raises
records both trials, scores the failed one 0, and reports best value
being the maximum recorded score. -/
theorem optimize_trials_witness :
    (optimize (fun i => if i = 0 then .error "trial failed" else .ok 1) 2).n_trials = 2 ∧
    ((0 : ℕ), (0 : ℚ)) ∈
        (optimize (fun i => if i = 0 then .error "trial failed" else .ok 1) 2).trialValues := by
  have h := optimize_trials_spec (fun i => if i = 0 then .error "trial failed" else .ok 1) 2
    (by norm_num)
  exact ⟨h.1, h.2.2.1 0 "trial failed" (by norm_num) (by simp)⟩

/-- Claim C8: over the whole lifetime of a TrainingJob row — the creation
default followed by the writes of every run attached to the row, including
rows reused across runs by `get_or_create` — the progress percentage is
monotonically non-decreasing: the program only writes the initial 0 and a
terminal 100 per completed run (the per-epoch callback is constructed but
never invoked), so no write is smaller than an earlier one. -/
theorem progress_writes_nondecreasing (runsCompleted : List Bool) :
    progressNonDecreasing (jobLifetimeProgressWrites runsCompleted) := by
  unfold progressNonDecreasing jobLifetimeProgressWrites
  have hmem : ∀ x ∈ (runsCompleted.map runProgressWrites).flatten, x = (100 : ℚ) := by
    intro x hx
    rw [List.mem_flatten] at hx
    obtain ⟨l, hl, hxl⟩ := hx
    rw [List.mem_map] at hl
    obtain ⟨b, _, rfl⟩ := hl
    unfold runProgressWrites at hxl
    cases b with
    | true => simpa using hxl
    | false => simp at hxl
  refine List.Pairwise.cons ?_ ?_
  · intro y hy
    rw [hmem y hy]
    norm_num
  · apply List.pairwise_of_forall_mem_list
    intro a ha b hb
    rw [hmem a ha, hmem b hb]

/-- Witness for claim C8: the write sequence of a row that saw two
completed runs, 0 then 100 then 100, is non-decreasing. -/
theorem progress_writes_nondecreasing_witness :
    progressNonDecreasing (jobLifetimeProgressWrites [true, true]) :=
  progress_writes_nondecreasing [true, true]

/-- Helper: case analysis over the result branches of
`fallback_prediction`: every branch is flagged as a successful fallback
and carries all domain scores. -/
theorem fallback_prediction_branches
    (dd : List String) (title abstract : String) (th : ℚ) (j : String → ℚ) :
    (fallback_prediction dd title abstract th j).status = "success" ∧
    (fallback_prediction dd title abstract th j).fallback = true ∧
    (fallback_prediction dd title abstract th j).all_domain_scores =
        fallbackScores dd title abstract j := by
  unfold fallback_prediction
  refine ⟨?_, ?_, ?_⟩
  all_goals split
  all_goals try rfl
  all_goals split
  all_goals rfl

set_option linter.unusedVariables false in
/-- Claim C9: the fallback predictor always returns a successful result
flagged fallback=true for a nonempty text and nonempty candidate list,
scoring every candidate domain; and when no score clears the threshold it
predicts exactly the first highest-scoring domain when that raw score
exceeds the 0.2 relevance floor, and nothing otherwise. -/
theorem fallback_prediction_total_and_flagged
    (datasetDomains : List String) (title abstract : String) (threshold : ℚ)
    (jitter : String → ℚ)
    (htext : (title ++ " " ++ abstract) ≠ "")
    (hdoms : datasetDomains ≠ []) :
    (fallback_prediction datasetDomains title abstract threshold jitter).status = "success" ∧
    (fallback_prediction datasetDomains title abstract threshold jitter).fallback = true ∧
    (fallback_prediction datasetDomains title abstract threshold jitter).all_domain_scores.length
        = datasetDomains.length ∧
    ((∀ p ∈ fallbackScores datasetDomains title abstract jitter, p.2 < threshold) →
        ∀ best, argmaxFirst (fallbackScores datasetDomains title abstract jitter) = some best →
          (((0.2 : ℚ) < best.2 →
              (fallback_prediction datasetDomains title abstract threshold
                jitter).predicted_domains = [best.1]) ∧
           (¬ (0.2 : ℚ) < best.2 →
              (fallback_prediction datasetDomains title abstract threshold
                jitter).predicted_domains = []))) := by
  obtain ⟨hstat, hflag, hall⟩ :=
    fallback_prediction_branches datasetDomains title abstract threshold jitter
  refine ⟨hstat, hflag, ?_, ?_⟩
  · rw [hall]
    unfold fallbackScores
    rw [List.length_map]
    cases datasetDomains with
    | nil => exact absurd rfl hdoms
    | cons d ds => rfl
  · intro hbelow best hb
    have hfilter : fallbackFiltered datasetDomains title abstract threshold jitter = [] := by
      unfold fallbackFiltered
      rw [List.filter_eq_nil_iff]
      intro p hp
      simp only [decide_eq_true_eq]
      exact not_le.mpr (hbelow p hp)
    constructor
    · intro hgt
      simp only [fallback_prediction, hfilter, List.map_nil, hb]
      rw [if_pos hgt]
    · intro hle
      simp only [fallback_prediction, hfilter, List.map_nil, hb]
      rw [if_neg hle]

/-- Witness for claim C9: on the concrete inputs (one candidate domain,
keyword-bearing text, threshold 2 which nothing clears), the result is a
successful fallback-flagged prediction. -/
theorem fallback_prediction_witness :
    (fallback_prediction ["cardiology"] "chest pain" "heart attack" 2 (fun _ => 0)).status
        = "success" ∧
    (fallback_prediction ["cardiology"] "chest pain" "heart attack" 2 (fun _ => 0)).fallback
        = true := by
  have h := fallback_prediction_total_and_flagged ["cardiology"] "chest pain" "heart attack" 2
    (fun _ => 0) (by decide) (by decide)
  exact ⟨h.1, h.2.1⟩

/-- Claim C10: the Gemma prediction for a given generated response is
completely independent of the threshold of the caller, and every value of its
all_scores map is exactly 0.8 or exactly 0.2, with 0.8 exactly for the
predicted labels. -/
theorem gemma_predict_threshold_irrelevant
    (genText : String) (all_labels : List String) (t t' : ℚ) :
    gemma_predict_one genText all_labels t = gemma_predict_one genText all_labels t' ∧
    ∀ p ∈ (gemma_predict_one genText all_labels t).all_scores,
        (p.2 = 0.8 ∨ p.2 = 0.2) ∧
        (p.2 = 0.8 ↔ p.1 ∈ (gemma_predict_one genText all_labels t).predicted_domains) := by
  refine ⟨rfl, ?_⟩
  intro p hp
  unfold gemma_predict_one at hp ⊢
  simp only [List.mem_map] at hp
  obtain ⟨l, hl, rfl⟩ := hp
  by_cases hc : (parse_classification_response (extract_classification genText)
      all_labels).contains l = true
  · rw [if_pos hc]
    refine ⟨Or.inl rfl, ?_⟩
    simp only [true_iff]
    exact List.mem_of_elem_eq_true hc
  · rw [if_neg hc]
    refine ⟨Or.inr rfl, ?_⟩
    constructor
    · intro h82
      exact absurd h82 (by norm_num)
    · intro hmem
      simp only [Bool.not_eq_true] at hc
      have : l ∉ parse_classification_response (extract_classification genText) all_labels := by
        simpa using hc
      exact absurd hmem this

/-- Witness for claim C10: on a concrete generated response naming
cardiology, predictions at thresholds 0 and 1 coincide, and the scores of
the two labels are the fixed 0.8 and 0.2 values. -/
theorem gemma_predict_witness :
    gemma_predict_one "Classification (respond with only the domains): cardiology"
        ["cardiology", "neurology"] 0 =
      gemma_predict_one "Classification (respond with only the domains): cardiology"
        ["cardiology", "neurology"] 1 :=
  (gemma_predict_threshold_irrelevant
    "Classification (respond with only the domains): cardiology"
    ["cardiology", "neurology"] 0 1).1

end Medlitbot
